import Mathlib

/-!
Verification of `sync-repo.py`, a script that synchronizes a forked git
repository with its upstream source.  The script is a straight-line
orchestration of git commands (via GitPython), so we embed it as a function
from an abstract environment (the observable state of the repository and of
the external git tool: remotes, fetch results, dirty files, submodules,
conflict outcomes, the current clock) to the trace of git commands it issues
together with a completion status.
-/

namespace SyncRepo

/-- One git command issued by the script.  `fetch remote refspec` records the
refspec argument: `none` means the command was issued with no refspec, i.e.
the remote's whole fetch refspec (all refs) is used.  Submodule commands are
issued against the submodule's own repository and carry its name. -/
inductive GitAction where
  | fetch (remote : String) (refspec : Option String)
  | createRemote (name url : String)
  | deleteRemote (name : String)
  | stashSave
  | stashPop
  | checkout (branch : String)
  | merge (ref : String)
  | commit (message : String)
  | push
  | pushTags
  | createTag (name message : String)
  | rebase (branch : String)
  | subStash (name : String)
  | subUpdate (name : String)
  | subStashPop (name : String)
  deriving DecidableEq

/-- How the run ended: normally, or aborted by an uncaught exception. -/
inductive RunResult where
  | finished
  | fatal
  deriving DecidableEq

/-- Outcome of the `repo.git.commit` call: success, the expected
"nothing to commit" error, or any other failure (hook failure, bad index,
...).  In the source all three are possible behaviours of the external
tool. -/
inductive CommitOutcome where
  | ok
  | nothingToCommit
  | otherFailure
  deriving DecidableEq

/-- A broken-down local timestamp, the input of `strftime`. -/
structure DateTime where
  year : Nat
  month : Nat
  day : Nat
  hour : Nat
  minute : Nat
  second : Nat
  deriving DecidableEq

/-- A submodule as the script observes it: its name, the `a_path`s of
`sm_repo.index.diff(None)` and its untracked files. -/
structure Submodule where
  name : String
  changedFiles : List String
  untracked : List String
  deriving DecidableEq

/-- The observable environment of one run: the configuration constants
(`UPSTREAM`, `UPSTREAM_BRANCH`), the repository state the script reads, and
the outcomes the external git tool produces for the fallible commands. -/
structure Env where
  upstreamURL : String
  upstreamBranch : String
  remotes : List (String × String)
  fetchInfos : List Nat
  currentBranch : String
  diffFiles : List String
  untrackedFiles : List String
  submodules : List Submodule
  tags : List String
  commitOutcome : CommitOutcome
  mergeConflict : Bool
  rebaseConflict : Bool
  stashPopConflict : Bool
  now : DateTime
  deriving DecidableEq

/-- GitPython `FetchInfo.HEAD_UPTODATE` flag value. -/
def HEAD_UPTODATE : Nat := 4

/-- GitPython `FetchInfo.FAST_FORWARD` flag value (new commits). -/
def FAST_FORWARD : Nat := 64

/-- GitPython `FetchInfo.NEW_HEAD` flag value (new branch). -/
def NEW_HEAD : Nat := 2

/-- GitPython `FetchInfo.FORCED_UPDATE` flag value. -/
def FORCED_UPDATE : Nat := 32

/-- The fixed commit message of the source; the inner double quotes are part
of the message the source passes. -/
def commitMessage : String := "\"upstream synced\""

/-- URL of the first remote named `n`, as `repo.remotes.<n>.url` reads it. -/
def lookupRemote (rs : List (String × String)) (n : String) : Option String :=
  (rs.find? (fun r => r.1 == n)).map Prod.snd

/-- Effect of `repo.create_remote(n, url)` on the remote list. -/
def create_remote (rs : List (String × String)) (n url : String) :
    List (String × String) :=
  rs ++ [(n, url)]

/-- Effect of `repo.delete_remote(n)` on the remote list. -/
def delete_remote (rs : List (String × String)) (n : String) :
    List (String × String) :=
  rs.filter (fun r => r.1 != n)

/-- Model of `repo_remotes`: ensure a remote named "upstream" exists and points at the
configured URL.  Returns the new remote list and the commands issued. -/
def repo_remotes (upstreamURL : String) (rs : List (String × String)) :
    List (String × String) × List GitAction :=
  if ("upstream" : String) ∈ rs.map Prod.fst then
    if lookupRemote rs "upstream" = some upstreamURL then
      (rs, [])
    else
      (create_remote (delete_remote rs "upstream") "upstream" upstreamURL,
       [GitAction.deleteRemote "upstream",
        GitAction.createRemote "upstream" upstreamURL])
  else
    (create_remote rs "upstream" upstreamURL,
     [GitAction.createRemote "upstream" upstreamURL])

/-- Model of `check_upstream_changes`: `repo.remotes.upstream.fetch()[0].flags == 4`.
The fetch is issued with no refspec; the decision reads the first fetch-info
entry only.  `none` models the `IndexError` on an empty fetch-info list. -/
def check_upstream_changes (fetchInfos : List Nat) :
    List GitAction × Option Bool :=
  ([GitAction.fetch "upstream" none],
   match fetchInfos with
   | [] => none
   | f :: _ => some (if f == 4 then false else true))

/-- Model of `get_status`: untracked files are only logged; the returned change list
is the `a_path`s of `repo.index.diff(None)`. -/
def get_status (diffFiles untrackedFiles : List String) : List String :=
  diffFiles

/-- Model of `stash_changes`: stash iff `get_status` is non-empty; returns the
commands issued and the `stashed_changes` flag. -/
def stash_changes (diffFiles untrackedFiles : List String) :
    List GitAction × Bool :=
  if get_status diffFiles untrackedFiles ≠ [] then
    ([GitAction.stashSave], true)
  else
    ([], false)

/-- Model of `stash_pop_changes`: pop iff `stashed_changes` is true. -/
def stash_pop_changes (stashedChanges : Bool) : List GitAction :=
  if stashedChanges then [GitAction.stashPop] else []

/-- Model of `sync_upstream`: check out the default branch when on another branch,
then merge `upstream/<default>`. -/
def sync_upstreamActs (currentBranch upstreamBranch : String) :
    List GitAction :=
  (if currentBranch ≠ upstreamBranch then [GitAction.checkout upstreamBranch]
   else []) ++ [GitAction.merge ("upstream/" ++ upstreamBranch)]

/-- One iteration of the `update_submodules` loop: stash the submodule's
changed files if any, update it, pop its stash if one was made. -/
def update_submodule (sm : Submodule) : List GitAction :=
  (if sm.changedFiles ≠ [] then [GitAction.subStash sm.name] else [])
  ++ [GitAction.subUpdate sm.name]
  ++ (if sm.changedFiles ≠ [] then [GitAction.subStashPop sm.name] else [])

/-- Model of `update_submodules`: iterate over every registered submodule; a run with
no submodules issues nothing. -/
def update_submodulesActs (sms : List Submodule) : List GitAction :=
  sms.flatMap update_submodule

/-- Zero-pad a number to (at least) two digits, as `strftime` does for
`%m %d %H %M %S`. -/
def pad2 (n : Nat) : String :=
  if n < 10 then "0" ++ toString n else toString n

/-- Zero-pad a number to (at least) four digits, as `strftime` does for
`%Y`. -/
def pad4 (n : Nat) : String :=
  if n < 10 then "000" ++ toString n
  else if n < 100 then "00" ++ toString n
  else if n < 1000 then "0" ++ toString n
  else toString n

/-- Model of `datetime.datetime.now().strftime("%Y-%m-%d-%H-%M-%S")`. -/
def formatTimestamp (t : DateTime) : String :=
  pad4 t.year ++ "-" ++ pad2 t.month ++ "-" ++ pad2 t.day ++ "-"
    ++ pad2 t.hour ++ "-" ++ pad2 t.minute ++ "-" ++ pad2 t.second

/-- The fixed tag message template of `tagging`. -/
def tagMessage (now : DateTime) : String :=
  "Automatic tag created on: " ++ formatTimestamp now

/-- Model of `tagging`: existing tags are only logged; a tag named by the current
timestamp is created with the fixed message template. -/
def taggingActs (tags : List String) (now : DateTime) : List GitAction :=
  [GitAction.createTag (formatTimestamp now) (tagMessage now)]

/-- The `try: repo.git.commit(...) except: ...` block of `commit_changes`:
the `except:` clause is bare, so every exception — the expected
"nothing to commit" error and any other failure alike — is caught and the
function continues; the commit command itself was issued in all cases. -/
def commitAttempt (c : CommitOutcome) : List GitAction :=
  match c with
  | CommitOutcome.ok => [GitAction.commit commitMessage]
  | CommitOutcome.nothingToCommit => [GitAction.commit commitMessage]
  | CommitOutcome.otherFailure => [GitAction.commit commitMessage]

/-- Model of `commit_changes`: attempt a commit — the bare `except:` of the source
catches every exception, whatever its kind, so all three outcomes continue —
then push, tag, push tags, and finally, when the invocation branch differs
from the default branch, check it out again and rebase it.  The returned
flag is false when the rebase raised (a fatal, uncaught error). -/
def commit_changesActs (env : Env) : List GitAction × Bool :=
  let base : List GitAction :=
    commitAttempt env.commitOutcome ++ [GitAction.push]
      ++ taggingActs env.tags env.now ++ [GitAction.pushTags]
  if env.currentBranch ≠ env.upstreamBranch then
    (base ++ [GitAction.checkout env.currentBranch,
              GitAction.rebase env.upstreamBranch],
     !env.rebaseConflict)
  else
    (base, true)

/-- The change-bearing body of `main` (everything inside
`if upstream_changes:`): stash, sync with upstream, update submodules,
commit and push, pop the stash.  A merge conflict, a rebase conflict, or a
stash-pop conflict raises out of the corresponding call and aborts the run
there; commands issued before (and the raising command itself) remain
issued. -/
def syncBody (env : Env) : List GitAction × RunResult :=
  let stashed := (stash_changes env.diffFiles env.untrackedFiles).2
  let stashActs := (stash_changes env.diffFiles env.untrackedFiles).1
  let mergeActs := sync_upstreamActs env.currentBranch env.upstreamBranch
  if env.mergeConflict then
    (stashActs ++ mergeActs, RunResult.fatal)
  else
    let smActs := update_submodulesActs env.submodules
    let commitActs := (commit_changesActs env).1
    if (commit_changesActs env).2 = false then
      (stashActs ++ mergeActs ++ smActs ++ commitActs, RunResult.fatal)
    else
      let popActs := stash_pop_changes stashed
      if stashed ∧ env.stashPopConflict then
        (stashActs ++ mergeActs ++ smActs ++ commitActs ++ popActs,
         RunResult.fatal)
      else
        (stashActs ++ mergeActs ++ smActs ++ commitActs ++ popActs,
         RunResult.finished)

/-- Model of `main`, from the remote setup on: configure the upstream remote, fetch
and check for upstream changes, and either run the sync body or only report
that no upstream changes were found. -/
def syncRepoRun (env : Env) : List GitAction × RunResult :=
  let remoteActs := (repo_remotes env.upstreamURL env.remotes).2
  let fetchActs := (check_upstream_changes env.fetchInfos).1
  match (check_upstream_changes env.fetchInfos).2 with
  | none => (remoteActs ++ fetchActs, RunResult.fatal)
  | some false => (remoteActs ++ fetchActs, RunResult.finished)
  | some true =>
      let body := syncBody env
      (remoteActs ++ fetchActs ++ body.1, body.2)

/-- An action that mutates the repository beyond remote configuration and
fetching: the checkouts, merges, commits, pushes, tags, stashes and
submodule updates of the sync body. -/
def isSyncMutation : GitAction → Bool
  | GitAction.fetch _ _ => false
  | GitAction.createRemote _ _ => false
  | GitAction.deleteRemote _ => false
  | _ => true

/-- Replace the outcome of the commit call, leaving every other part of the
environment unchanged. -/
def setCommitOutcome : Env → CommitOutcome → Env
  | ⟨u, b, rs, fi, cb, df, uf, sms, tg, _, mc, rc, sp, now⟩, c =>
    ⟨u, b, rs, fi, cb, df, uf, sms, tg, c, mc, rc, sp, now⟩

/-- Recognize a tag-creation command. -/
def isCreateTag : GitAction → Bool
  | GitAction.createTag _ _ => true
  | _ => false

/-- The branch left checked out after a trace of commands, starting from the
branch active at invocation. -/
def finalCheckedOutBranch (start : String) (acts : List GitAction) : String :=
  acts.foldl
    (fun b a =>
      match a with
      | GitAction.checkout br => br
      | _ => b)
    start

/-- The step order asserted by the spec's dirty-tree scenario, transcribed
from the spec's words (stash, checkout default, merge, submodules, checkout
original, rebase, commit, push, tag, push tags, stash pop) for comparison
with the order the source actually produces. -/
def claimedOrderC2 (env : Env) : List GitAction :=
  [GitAction.stashSave,
   GitAction.checkout env.upstreamBranch,
   GitAction.merge ("upstream/" ++ env.upstreamBranch)]
  ++ update_submodulesActs env.submodules
  ++ [GitAction.checkout env.currentBranch,
      GitAction.rebase env.upstreamBranch,
      GitAction.commit commitMessage,
      GitAction.push,
      GitAction.createTag (formatTimestamp env.now) (tagMessage env.now),
      GitAction.pushTags,
      GitAction.stashPop]

/-- A concrete no-change run: on branch "feature-x", the fetch reports
`HEAD_UPTODATE` (flags = 4). -/
def envNoChange : Env :=
  ⟨"git@example.com:user/repo.git", "master",
   [("origin", "git@example.com:me/repo.git"),
    ("upstream", "git@example.com:user/repo.git")],
   [4], "feature-x", [], [], [], [], CommitOutcome.ok,
   false, false, false, ⟨2024, 1, 2, 3, 4, 5⟩⟩

/-- A concrete change-bearing run: dirty tree, on branch "feature-x", fetch
reports a fast-forward, no submodules, no conflicts. -/
def envChange : Env :=
  ⟨"git@example.com:user/repo.git", "master",
   [("origin", "git@example.com:me/repo.git"),
    ("upstream", "git@example.com:user/repo.git")],
   [64], "feature-x", ["a.txt"], [], [], [], CommitOutcome.ok,
   false, false, false, ⟨2024, 1, 2, 3, 4, 5⟩⟩

/-- Same as `envChange` but with a merge conflict raised by the merge command. -/
def envMergeConflict : Env :=
  ⟨"git@example.com:user/repo.git", "master",
   [("origin", "git@example.com:me/repo.git"),
    ("upstream", "git@example.com:user/repo.git")],
   [64], "feature-x", ["a.txt"], [], [], [], CommitOutcome.ok,
   true, false, false, ⟨2024, 1, 2, 3, 4, 5⟩⟩

/-- Same as `envChange` but with the commit call failing for a reason other than
"nothing to commit". -/
def envCommitFails : Env :=
  ⟨"git@example.com:user/repo.git", "master",
   [("origin", "git@example.com:me/repo.git"),
    ("upstream", "git@example.com:user/repo.git")],
   [64], "feature-x", ["a.txt"], [], [], [], CommitOutcome.otherFailure,
   false, false, false, ⟨2024, 1, 2, 3, 4, 5⟩⟩

lemma commitAttempt_const (c : CommitOutcome) :
    commitAttempt c = [GitAction.commit commitMessage] := by
  cases c <;> rfl

lemma lookupRemote_mem_names {rs : List (String × String)} {n u : String}
    (h : lookupRemote rs n = some u) : n ∈ rs.map Prod.fst := by
  induction rs with
  | nil => simp [lookupRemote] at h
  | cons a t ih =>
    cases hb : (a.1 == n) with
    | true =>
      rw [List.map_cons]
      exact List.mem_cons.mpr (Or.inl (eq_of_beq hb).symm)
    | false =>
      simp only [lookupRemote, List.find?_cons, hb] at h
      rw [List.map_cons]
      exact List.mem_cons_of_mem _ (ih h)

lemma filter_names_nil {rs : List (String × String)} {n : String}
    (h : n ∉ rs.map Prod.fst) :
    rs.filter (fun r => r.1 == n) = [] := by
  induction rs with
  | nil => rfl
  | cons a t ih =>
    simp only [List.map_cons, List.mem_cons, not_or] at h
    have hne : a.1 ≠ n := fun e => h.1 e.symm
    simp [List.filter_cons, hne, ih h.2]

lemma filter_single_of_nodup {rs : List (String × String)} {n u : String}
    (hnd : (rs.map Prod.fst).Nodup) (h : lookupRemote rs n = some u) :
    rs.filter (fun r => r.1 == n) = [(n, u)] := by
  induction rs with
  | nil => simp [lookupRemote] at h
  | cons a t ih =>
    rw [List.map_cons, List.nodup_cons] at hnd
    obtain ⟨a1, a2⟩ := a
    cases hb : (a1 == n) with
    | true =>
      have ha : a1 = n := eq_of_beq hb
      simp only [lookupRemote, List.find?_cons, hb] at h
      simp only [Option.map_some', Option.some.injEq] at h
      subst ha
      have hrest : t.filter (fun r => r.1 == a1) = [] :=
        filter_names_nil (by simpa using hnd.1)
      simp [List.filter_cons, hb, hrest, h]
    | false =>
      simp only [lookupRemote, List.find?_cons, hb] at h
      simp [List.filter_cons, hb, ih hnd.2 h]

lemma lookupRemote_of_filter_single {rs : List (String × String)}
    {n u : String} (h : rs.filter (fun r => r.1 == n) = [(n, u)]) :
    lookupRemote rs n = some u := by
  induction rs with
  | nil => simp at h
  | cons a t ih =>
    cases hb : (a.1 == n) with
    | true =>
      simp only [List.filter_cons, hb, if_true, cond_true] at h
      simp only [List.cons.injEq] at h
      simp only [lookupRemote, List.find?_cons, hb]
      rw [h.1]
      rfl
    | false =>
      simp only [List.filter_cons, hb, if_false, cond_false] at h
      simp only [lookupRemote, List.find?_cons, hb]
      exact ih h

lemma filter_delete_nil (rs : List (String × String)) (n : String) :
    (delete_remote rs n).filter (fun r => r.1 == n) = [] := by
  rw [List.filter_eq_nil_iff]
  intro a ha
  simp only [delete_remote, List.mem_filter, bne_iff_ne, ne_eq] at ha
  simp [ha.2]

/-- C5: `repo_remotes` is idempotent: if a remote named "upstream" already
exists with the configured URL it performs no change; if it exists with a
different URL it is deleted and recreated exactly once; in every case its
postcondition is that exactly one remote named "upstream" exists whose URL
equals the configured upstream URL, and a second consecutive run produces no
further changes. -/
theorem repo_remotes_idempotent (url : String) (rs : List (String × String))
    (hnd : (rs.map Prod.fst).Nodup) :
    (repo_remotes url rs).1.filter (fun r => r.1 == "upstream")
        = [("upstream", url)] ∧
    (lookupRemote rs "upstream" = some url →
      repo_remotes url rs = (rs, [])) ∧
    (∀ u, lookupRemote rs "upstream" = some u → u ≠ url →
      (repo_remotes url rs).2 =
        [GitAction.deleteRemote "upstream",
         GitAction.createRemote "upstream" url]) ∧
    repo_remotes url (repo_remotes url rs).1 = ((repo_remotes url rs).1, []) := by
  have key : (repo_remotes url rs).1.filter (fun r => r.1 == "upstream")
      = [("upstream", url)] := by
    by_cases hmem : ("upstream" : String) ∈ rs.map Prod.fst
    · by_cases heq : lookupRemote rs "upstream" = some url
      · simp only [repo_remotes, hmem, heq, if_true, if_pos]
        exact filter_single_of_nodup hnd heq
      · simp only [repo_remotes, hmem, heq, if_true, if_false, if_neg,
          not_false_iff, create_remote]
        rw [List.filter_append, filter_delete_nil]
        simp
    · simp only [repo_remotes, hmem, if_neg, not_false_iff, create_remote]
      rw [List.filter_append, filter_names_nil hmem]
      simp
  refine ⟨key, ?_, ?_, ?_⟩
  · intro heq
    have hmem := lookupRemote_mem_names heq
    simp [repo_remotes, hmem, heq]
  · intro u hu hne
    have hmem := lookupRemote_mem_names hu
    have heq : ¬(lookupRemote rs "upstream" = some url) := by
      rw [hu]
      simp [hne]
    simp [repo_remotes, hmem, heq]
  · have hl : lookupRemote (repo_remotes url rs).1 "upstream" = some url :=
      lookupRemote_of_filter_single key
    generalize hg : (repo_remotes url rs).1 = rs1 at hl ⊢
    have hm := lookupRemote_mem_names hl
    simp [repo_remotes, hm, hl]

/-- Witness for C5 at a concrete remote list holding an "upstream" remote
with a stale URL. -/
theorem repo_remotes_idempotent_witness :
    (([("origin", "git@example.com:me/repo.git"),
       ("upstream", "git@example.com:old/repo.git")].map
        (Prod.fst (α := String) (β := String))).Nodup) ∧
    ((repo_remotes "git@example.com:user/repo.git"
        [("origin", "git@example.com:me/repo.git"),
         ("upstream", "git@example.com:old/repo.git")]).1.filter
          (fun r => r.1 == "upstream")
        = [("upstream", "git@example.com:user/repo.git")] ∧
     (lookupRemote
        [("origin", "git@example.com:me/repo.git"),
         ("upstream", "git@example.com:old/repo.git")] "upstream"
          = some "git@example.com:user/repo.git" →
      repo_remotes "git@example.com:user/repo.git"
        [("origin", "git@example.com:me/repo.git"),
         ("upstream", "git@example.com:old/repo.git")]
        = ([("origin", "git@example.com:me/repo.git"),
            ("upstream", "git@example.com:old/repo.git")], [])) ∧
     (∀ u, lookupRemote
        [("origin", "git@example.com:me/repo.git"),
         ("upstream", "git@example.com:old/repo.git")] "upstream" = some u →
        u ≠ "git@example.com:user/repo.git" →
      (repo_remotes "git@example.com:user/repo.git"
        [("origin", "git@example.com:me/repo.git"),
         ("upstream", "git@example.com:old/repo.git")]).2 =
        [GitAction.deleteRemote "upstream",
         GitAction.createRemote "upstream" "git@example.com:user/repo.git"]) ∧
     repo_remotes "git@example.com:user/repo.git"
        (repo_remotes "git@example.com:user/repo.git"
          [("origin", "git@example.com:me/repo.git"),
           ("upstream", "git@example.com:old/repo.git")]).1
        = ((repo_remotes "git@example.com:user/repo.git"
            [("origin", "git@example.com:me/repo.git"),
             ("upstream", "git@example.com:old/repo.git")]).1, [])) :=
  ⟨by decide,
   repo_remotes_idempotent "git@example.com:user/repo.git"
     [("origin", "git@example.com:me/repo.git"),
      ("upstream", "git@example.com:old/repo.git")] (by decide)⟩

/-- C4: `check_upstream_changes` returns false if and only if the first
fetch-info entry's flags equal the up-to-date flag (`HEAD_UPTODATE = 4`),
and returns true for every other flags value (fast-forward, new branch,
forced update, ...). -/
theorem check_upstream_changes_false_iff (f : Nat) (rest : List Nat) :
    ((check_upstream_changes (f :: rest)).2 = some false ↔ f = HEAD_UPTODATE)
    ∧
    ((check_upstream_changes (f :: rest)).2 = some true ↔ f ≠ HEAD_UPTODATE)
    := by
  by_cases h : f = 4
  · subst h
    simp [check_upstream_changes, HEAD_UPTODATE]
  · simp [check_upstream_changes, HEAD_UPTODATE, h]

/-- C9: the fetch of `check_upstream_changes` is issued against the
"upstream" remote with no refspec, so the remote's whole fetch refspec (all
refs) applies, and the returned decision reads only the flags of the first
fetch-info entry: any two fetch results sharing a first entry yield the same
decision. -/
theorem check_upstream_changes_first_entry (fetchInfos : List Nat) (f : Nat)
    (r r' : List Nat) :
    (check_upstream_changes fetchInfos).1 =
      [GitAction.fetch "upstream" none] ∧
    (check_upstream_changes (f :: r)).2 =
      (check_upstream_changes (f :: r')).2 :=
  ⟨rfl, rfl⟩

lemma check_fetch_acts (fi : List Nat) :
    (check_upstream_changes fi).1 = [GitAction.fetch "upstream" none] := rfl

lemma repo_remotes_acts_no_mutation (url : String)
    (rs : List (String × String)) :
    ∀ a ∈ (repo_remotes url rs).2, isSyncMutation a = false := by
  intro a ha
  by_cases hmem : ("upstream" : String) ∈ rs.map Prod.fst
  · by_cases heq : lookupRemote rs "upstream" = some url
    · simp [repo_remotes, hmem, heq] at ha
    · simp [repo_remotes, hmem, heq] at ha
      rcases ha with h | h <;> subst h <;> rfl
  · simp [repo_remotes, hmem] at ha
    subst ha
    rfl

/-- C1: a run in which `check_upstream_changes` reports no new commits
performs no repository mutation after the fetch: its whole trace is the
remote setup followed by the fetch, it finishes normally, and no checkout,
merge, commit, push, tag, stash or submodule command appears anywhere in
it. -/
theorem no_change_run_only_reports (env : Env)
    (h : (check_upstream_changes env.fetchInfos).2 = some false) :
    (syncRepoRun env).2 = RunResult.finished ∧
    (syncRepoRun env).1 =
      (repo_remotes env.upstreamURL env.remotes).2
        ++ [GitAction.fetch "upstream" none] ∧
    ∀ a ∈ (syncRepoRun env).1, isSyncMutation a = false := by
  have htr : syncRepoRun env =
      ((repo_remotes env.upstreamURL env.remotes).2
        ++ [GitAction.fetch "upstream" none], RunResult.finished) := by
    simp [syncRepoRun, h, check_fetch_acts]
  rw [htr]
  refine ⟨rfl, rfl, ?_⟩
  intro a ha
  rcases List.mem_append.mp ha with hm | hm
  · exact repo_remotes_acts_no_mutation _ _ a hm
  · rcases List.mem_singleton.mp hm with rfl
    rfl

/-- Witness for C1 at the concrete no-change environment. -/
theorem no_change_run_only_reports_witness :
    (check_upstream_changes envNoChange.fetchInfos).2 = some false ∧
    ((syncRepoRun envNoChange).2 = RunResult.finished ∧
     (syncRepoRun envNoChange).1 =
       (repo_remotes envNoChange.upstreamURL envNoChange.remotes).2
         ++ [GitAction.fetch "upstream" none] ∧
     ∀ a ∈ (syncRepoRun envNoChange).1, isSyncMutation a = false) :=
  ⟨by decide, no_change_run_only_reports envNoChange (by decide)⟩

lemma commit_changesActs_eq (env : Env) :
    commit_changesActs env =
      ([GitAction.commit commitMessage, GitAction.push,
        GitAction.createTag (formatTimestamp env.now) (tagMessage env.now),
        GitAction.pushTags]
        ++ (if env.currentBranch ≠ env.upstreamBranch
            then [GitAction.checkout env.currentBranch,
                  GitAction.rebase env.upstreamBranch]
            else []),
       if env.currentBranch ≠ env.upstreamBranch
         then !env.rebaseConflict else true) := by
  by_cases hb : env.currentBranch = env.upstreamBranch
  · simp [commit_changesActs, hb, commitAttempt_const, taggingActs]
  · simp [commit_changesActs, hb, commitAttempt_const, taggingActs]

lemma syncBody_trace (env : Env) (hm : env.mergeConflict = false) :
    (syncBody env).1 =
      (stash_changes env.diffFiles env.untrackedFiles).1
      ++ sync_upstreamActs env.currentBranch env.upstreamBranch
      ++ update_submodulesActs env.submodules
      ++ (commit_changesActs env).1
      ++ (if (commit_changesActs env).2 = false then []
          else stash_pop_changes
            (stash_changes env.diffFiles env.untrackedFiles).2) := by
  by_cases hc : (commit_changesActs env).2 = false
  · simp [syncBody, hm, hc]
  · by_cases hp : ((stash_changes env.diffFiles env.untrackedFiles).2
        ∧ env.stashPopConflict)
    · simp [syncBody, hm, hc, hp]
    · simp [syncBody, hm, hc, hp]

lemma syncBody_result_finished (env : Env) :
    (syncBody env).2 = RunResult.finished ↔
      env.mergeConflict = false ∧ (commit_changesActs env).2 = true ∧
      ¬((stash_changes env.diffFiles env.untrackedFiles).2 = true ∧
        env.stashPopConflict = true) := by
  by_cases hm : env.mergeConflict = true
  · simp [syncBody, hm]
  · by_cases hc : (commit_changesActs env).2 = false
    · simp [syncBody, hm, hc]
    · by_cases hp : ((stash_changes env.diffFiles env.untrackedFiles).2
          ∧ env.stashPopConflict)
      · simp [syncBody, hm, hc, hp]
      · simp [syncBody, hm, hc, hp]

lemma syncRepoRun_change (env : Env)
    (hc : (check_upstream_changes env.fetchInfos).2 = some true) :
    syncRepoRun env =
      ((repo_remotes env.upstreamURL env.remotes).2
        ++ [GitAction.fetch "upstream" none] ++ (syncBody env).1,
       (syncBody env).2) := by
  simp [syncRepoRun, hc, check_fetch_acts]

/-- C2 (amended): in a change-bearing run with a dirty tree on a non-default
branch that completes, the steps occur in this order: stash, checkout of the
default branch, merge of upstream's default branch, submodule update, commit
attempt, push, tag creation, push of tags, checkout of the original branch,
rebase onto the default branch, and stash pop — the original branch is
restored and rebased after the pushes, not before the commit. -/
theorem change_run_step_order (env : Env)
    (hc : (check_upstream_changes env.fetchInfos).2 = some true)
    (hd : env.diffFiles ≠ [])
    (hb : env.currentBranch ≠ env.upstreamBranch)
    (hm : env.mergeConflict = false)
    (hr : env.rebaseConflict = false)
    (hp : env.stashPopConflict = false) :
    (syncRepoRun env).1 =
      (repo_remotes env.upstreamURL env.remotes).2
      ++ [GitAction.fetch "upstream" none]
      ++ [GitAction.stashSave,
          GitAction.checkout env.upstreamBranch,
          GitAction.merge ("upstream/" ++ env.upstreamBranch)]
      ++ update_submodulesActs env.submodules
      ++ [GitAction.commit commitMessage,
          GitAction.push,
          GitAction.createTag (formatTimestamp env.now) (tagMessage env.now),
          GitAction.pushTags,
          GitAction.checkout env.currentBranch,
          GitAction.rebase env.upstreamBranch,
          GitAction.stashPop] ∧
    (syncRepoRun env).2 = RunResult.finished := by
  rw [syncRepoRun_change env hc]
  have hok : (commit_changesActs env).2 = true := by
    rw [commit_changesActs_eq env]
    simp [hb, hr]
  constructor
  · rw [syncBody_trace env hm, commit_changesActs_eq env]
    simp [stash_changes, get_status, hd, sync_upstreamActs, hb, hok,
      stash_pop_changes, commit_changesActs_eq, hr, List.append_assoc]
  · rw [syncBody_result_finished env]
    exact ⟨hm, hok, by simp [hp]⟩

/-- Counterexample to C2 as stated: at a concrete dirty, non-default-branch,
change-bearing run the trace the source produces differs from the order the
claim asserts (which places the checkout of the original branch and its
rebase before the commit attempt). -/
theorem change_run_step_order_cx :
    envChange.diffFiles ≠ [] ∧
    envChange.currentBranch ≠ envChange.upstreamBranch ∧
    (check_upstream_changes envChange.fetchInfos).2 = some true ∧
    (syncBody envChange).1 ≠ claimedOrderC2 envChange := by decide

/-- Witness for the amended C2 at the concrete change-bearing environment. -/
theorem change_run_step_order_witness :
    ((check_upstream_changes envChange.fetchInfos).2 = some true ∧
     envChange.diffFiles ≠ [] ∧
     envChange.currentBranch ≠ envChange.upstreamBranch ∧
     envChange.mergeConflict = false ∧
     envChange.rebaseConflict = false ∧
     envChange.stashPopConflict = false) ∧
    ((syncRepoRun envChange).1 =
      (repo_remotes envChange.upstreamURL envChange.remotes).2
      ++ [GitAction.fetch "upstream" none]
      ++ [GitAction.stashSave,
          GitAction.checkout envChange.upstreamBranch,
          GitAction.merge ("upstream/" ++ envChange.upstreamBranch)]
      ++ update_submodulesActs envChange.submodules
      ++ [GitAction.commit commitMessage,
          GitAction.push,
          GitAction.createTag (formatTimestamp envChange.now)
            (tagMessage envChange.now),
          GitAction.pushTags,
          GitAction.checkout envChange.currentBranch,
          GitAction.rebase envChange.upstreamBranch,
          GitAction.stashPop] ∧
     (syncRepoRun envChange).2 = RunResult.finished) :=
  ⟨⟨by decide, by decide, by decide, by decide, by decide, by decide⟩,
   change_run_step_order envChange (by decide) (by decide) (by decide)
     (by decide) (by decide) (by decide)⟩

lemma commit_changesActs_setOutcome (env : Env) (c : CommitOutcome) :
    commit_changesActs (setCommitOutcome env c) = commit_changesActs env := by
  obtain ⟨u, b, rs, fi, cb, df, uf, sms, tg, co, mc, rc, sp, now⟩ := env
  simp [setCommitOutcome, commit_changesActs, commitAttempt_const]

lemma syncRepoRun_setOutcome (env : Env) (c : CommitOutcome) :
    syncRepoRun (setCommitOutcome env c) = syncRepoRun env := by
  obtain ⟨u, b, rs, fi, cb, df, uf, sms, tg, co, mc, rc, sp, now⟩ := env
  simp [setCommitOutcome, syncRepoRun, syncBody, commit_changesActs,
    commitAttempt_const]

/-- C3 (amended): the bare `except:` around the commit call treats every
commit failure as non-fatal, not only the expected "nothing to commit"
case: the outcome of the commit call — success, "nothing to commit", or any
other failure — has no effect whatsoever on the commands the run issues or
on the run's result, so no commit failure aborts the run. -/
theorem commit_failures_all_swallowed (env : Env) (c : CommitOutcome) :
    syncRepoRun (setCommitOutcome env c) = syncRepoRun env :=
  syncRepoRun_setOutcome env c

/-- Counterexample to C3 as stated: a commit failure of a kind other than
"nothing to commit" does not propagate and abort the run — the run still
finishes, and the push is still issued. -/
theorem commit_failures_all_swallowed_cx :
    envCommitFails.commitOutcome = CommitOutcome.otherFailure ∧
    (syncRepoRun envCommitFails).2 = RunResult.finished ∧
    GitAction.push ∈ (syncRepoRun envCommitFails).1 := by decide

lemma finalCheckedOutBranch_append (s : String) (l1 l2 : List GitAction) :
    finalCheckedOutBranch s (l1 ++ l2) =
      finalCheckedOutBranch (finalCheckedOutBranch s l1) l2 :=
  List.foldl_append _ _ _ _

/-- C6 (amended): in every change-bearing run in which the branch active at
invocation differs from the default branch and which completes without fatal
error, that same branch is the one left checked out at the end and it has
been rebased onto the default branch; in a no-change run the branch is never
left, and no rebase occurs. -/
theorem branch_restored_and_rebased (env : Env)
    (hc : (check_upstream_changes env.fetchInfos).2 = some true)
    (hb : env.currentBranch ≠ env.upstreamBranch)
    (hf : (syncRepoRun env).2 = RunResult.finished) :
    finalCheckedOutBranch env.currentBranch (syncRepoRun env).1
      = env.currentBranch ∧
    GitAction.rebase env.upstreamBranch ∈ (syncRepoRun env).1 := by
  rw [syncRepoRun_change env hc] at hf
  obtain ⟨hm, hok, -⟩ := (syncBody_result_finished env).mp hf
  have hrc : env.rebaseConflict = false := by
    have h2 := hok
    rw [commit_changesActs_eq env] at h2
    simp [hb] at h2
    exact h2
  have htr : (syncRepoRun env).1 =
      ((repo_remotes env.upstreamURL env.remotes).2
        ++ [GitAction.fetch "upstream" none]
        ++ (stash_changes env.diffFiles env.untrackedFiles).1
        ++ sync_upstreamActs env.currentBranch env.upstreamBranch
        ++ update_submodulesActs env.submodules
        ++ [GitAction.commit commitMessage, GitAction.push,
            GitAction.createTag (formatTimestamp env.now) (tagMessage env.now),
            GitAction.pushTags])
      ++ ([GitAction.checkout env.currentBranch,
           GitAction.rebase env.upstreamBranch]
          ++ stash_pop_changes
              (stash_changes env.diffFiles env.untrackedFiles).2) := by
    rw [syncRepoRun_change env hc]
    simp only []
    rw [syncBody_trace env hm, commit_changesActs_eq env]
    simp [hb, hrc, List.append_assoc]
  constructor
  · rw [htr, finalCheckedOutBranch_append, finalCheckedOutBranch_append]
    cases hst : (stash_changes env.diffFiles env.untrackedFiles).2 <;>
      simp [hst, stash_pop_changes, finalCheckedOutBranch]
  · rw [htr]
    simp [List.mem_append]

/-- Counterexample to C6 as stated: a no-change run on a non-default branch
completes without fatal error, yet that branch is never checked out again
and never rebased — the claim's rebase conjunct fails for such runs. -/
theorem branch_restored_and_rebased_cx :
    envNoChange.currentBranch ≠ envNoChange.upstreamBranch ∧
    (syncRepoRun envNoChange).2 = RunResult.finished ∧
    GitAction.rebase envNoChange.upstreamBranch ∉ (syncRepoRun envNoChange).1 ∧
    GitAction.checkout envNoChange.currentBranch ∉ (syncRepoRun envNoChange).1
    := by decide

/-- Witness for the amended C6 at the concrete change-bearing environment. -/
theorem branch_restored_and_rebased_witness :
    ((check_upstream_changes envChange.fetchInfos).2 = some true ∧
     envChange.currentBranch ≠ envChange.upstreamBranch ∧
     (syncRepoRun envChange).2 = RunResult.finished) ∧
    (finalCheckedOutBranch envChange.currentBranch (syncRepoRun envChange).1
      = envChange.currentBranch ∧
     GitAction.rebase envChange.upstreamBranch ∈ (syncRepoRun envChange).1) :=
  ⟨⟨by decide, by decide, by decide⟩,
   branch_restored_and_rebased envChange (by decide) (by decide) (by decide)⟩

lemma mem_update_submodulesActs {a : GitAction} {sms : List Submodule}
    (h : a ∈ update_submodulesActs sms) :
    ∃ sm ∈ sms, a = GitAction.subStash sm.name ∨
      a = GitAction.subUpdate sm.name ∨ a = GitAction.subStashPop sm.name := by
  rw [update_submodulesActs, List.mem_flatMap] at h
  obtain ⟨sm, hsm, ha⟩ := h
  refine ⟨sm, hsm, ?_⟩
  by_cases hch : sm.changedFiles = []
  · simp [update_submodule, hch] at ha
    tauto
  · simp [update_submodule, hch] at ha
    tauto

lemma stashSave_not_mem_sm (sms : List Submodule) :
    GitAction.stashSave ∉ update_submodulesActs sms := by
  intro h
  obtain ⟨sm, -, hd⟩ := mem_update_submodulesActs h
  rcases hd with h1 | h1 | h1 <;> simp at h1

lemma stashPop_not_mem_sm (sms : List Submodule) :
    GitAction.stashPop ∉ update_submodulesActs sms := by
  intro h
  obtain ⟨sm, -, hd⟩ := mem_update_submodulesActs h
  rcases hd with h1 | h1 | h1 <;> simp at h1

lemma stashSave_not_mem_syncUp (cb ub : String) :
    GitAction.stashSave ∉ sync_upstreamActs cb ub := by
  by_cases hb : cb = ub <;> simp [sync_upstreamActs, hb]

lemma stashPop_not_mem_syncUp (cb ub : String) :
    GitAction.stashPop ∉ sync_upstreamActs cb ub := by
  by_cases hb : cb = ub <;> simp [sync_upstreamActs, hb]

lemma stashSave_not_mem_commit (env : Env) :
    GitAction.stashSave ∉ (commit_changesActs env).1 := by
  rw [commit_changesActs_eq env]
  by_cases hb : env.currentBranch = env.upstreamBranch <;> simp [hb]

lemma stashPop_not_mem_commit (env : Env) :
    GitAction.stashPop ∉ (commit_changesActs env).1 := by
  rw [commit_changesActs_eq env]
  by_cases hb : env.currentBranch = env.upstreamBranch <;> simp [hb]

lemma stashSave_not_mem_pop (b : Bool) :
    GitAction.stashSave ∉ stash_pop_changes b := by
  cases b <;> simp [stash_pop_changes]

lemma stashSave_mem_stash_changes (d u : List String) :
    GitAction.stashSave ∈ (stash_changes d u).1 ↔ d ≠ [] := by
  by_cases hd : d = [] <;> simp [stash_changes, get_status, hd]

lemma stashPop_not_mem_stash_changes (d u : List String) :
    GitAction.stashPop ∉ (stash_changes d u).1 := by
  by_cases hd : d = [] <;> simp [stash_changes, get_status, hd]

lemma stash_changes_snd (d u : List String) :
    (stash_changes d u).2 = true ↔ d ≠ [] := by
  by_cases hd : d = [] <;> simp [stash_changes, get_status, hd]

lemma stashPop_mem_pop (b : Bool) :
    GitAction.stashPop ∈ stash_pop_changes b ↔ b = true := by
  cases b <;> simp [stash_pop_changes]

lemma not_mem_remotes_of_mutation {a : GitAction} (url : String)
    (rs : List (String × String)) (hmut : isSyncMutation a = true) :
    a ∉ (repo_remotes url rs).2 := by
  intro h
  have := repo_remotes_acts_no_mutation url rs a h
  rw [hmut] at this
  exact absurd this (by simp)

lemma stashSave_mem_syncBody (env : Env) :
    GitAction.stashSave ∈ (syncBody env).1 ↔ env.diffFiles ≠ [] := by
  by_cases hm : env.mergeConflict = true
  · simp [syncBody, hm, List.mem_append, stashSave_not_mem_syncUp,
      stashSave_mem_stash_changes]
  · have hm' : env.mergeConflict = false := by simpa using hm
    rw [syncBody_trace env hm']
    by_cases hcf : (commit_changesActs env).2 = false <;>
      simp [hcf, List.mem_append, stashSave_not_mem_syncUp,
        stashSave_mem_stash_changes, stashSave_not_mem_commit,
        stashSave_not_mem_pop, stashSave_not_mem_sm]

/-- C7 (amended): in every change-bearing run a stash is created if and only
if the working tree has tracked uncommitted modifications (untracked files
never influence stashing), and in every change-bearing run that completes
without fatal error a stash is popped if and only if one was created; a run
aborted mid-way by a conflict can leave the created stash un-popped. -/
theorem stash_iff_dirty (env : Env)
    (hc : (check_upstream_changes env.fetchInfos).2 = some true) :
    (GitAction.stashSave ∈ (syncRepoRun env).1 ↔ env.diffFiles ≠ []) ∧
    (∀ u u' : List String,
      stash_changes env.diffFiles u = stash_changes env.diffFiles u') ∧
    ((syncRepoRun env).2 = RunResult.finished →
      (GitAction.stashPop ∈ (syncRepoRun env).1 ↔
        GitAction.stashSave ∈ (syncRepoRun env).1)) := by
  have hmemSave : GitAction.stashSave ∈ (syncRepoRun env).1 ↔
      env.diffFiles ≠ [] := by
    rw [syncRepoRun_change env hc]
    simp only [List.append_assoc, List.mem_append]
    rw [stashSave_mem_syncBody]
    simp [not_mem_remotes_of_mutation env.upstreamURL env.remotes
      (a := GitAction.stashSave) rfl]
  refine ⟨hmemSave, fun u u' => rfl, ?_⟩
  intro hf
  rw [syncRepoRun_change env hc] at hf
  obtain ⟨hm, hok, -⟩ := (syncBody_result_finished env).mp hf
  have hmemPop : GitAction.stashPop ∈ (syncRepoRun env).1 ↔
      env.diffFiles ≠ [] := by
    rw [syncRepoRun_change env hc]
    simp only [List.append_assoc, List.mem_append]
    rw [syncBody_trace env hm]
    have hcf : ¬((commit_changesActs env).2 = false) := by simp [hok]
    simp [hcf, List.mem_append, stashPop_not_mem_syncUp,
      stashPop_not_mem_stash_changes, stashPop_not_mem_commit,
      stashPop_not_mem_sm, stashPop_mem_pop, stash_changes_snd,
      not_mem_remotes_of_mutation env.upstreamURL env.remotes
        (a := GitAction.stashPop) rfl]
  rw [hmemPop, hmemSave]

/-- Counterexample to C7 as stated: in a change-bearing run whose merge
raises a conflict, a stash is created but never popped before the run
ends. -/
theorem stash_iff_dirty_cx :
    (check_upstream_changes envMergeConflict.fetchInfos).2 = some true ∧
    GitAction.stashSave ∈ (syncRepoRun envMergeConflict).1 ∧
    GitAction.stashPop ∉ (syncRepoRun envMergeConflict).1 := by decide

/-- Witness for the amended C7 at the concrete change-bearing environment. -/
theorem stash_iff_dirty_witness :
    (check_upstream_changes envChange.fetchInfos).2 = some true ∧
    ((GitAction.stashSave ∈ (syncRepoRun envChange).1 ↔
        envChange.diffFiles ≠ []) ∧
     (∀ u u' : List String,
        stash_changes envChange.diffFiles u =
          stash_changes envChange.diffFiles u') ∧
     ((syncRepoRun envChange).2 = RunResult.finished →
       (GitAction.stashPop ∈ (syncRepoRun envChange).1 ↔
         GitAction.stashSave ∈ (syncRepoRun envChange).1))) :=
  ⟨by decide, stash_iff_dirty envChange (by decide)⟩

lemma countP_isCreateTag_remotes (url : String)
    (rs : List (String × String)) :
    (repo_remotes url rs).2.countP isCreateTag = 0 := by
  by_cases hmem : ("upstream" : String) ∈ rs.map Prod.fst
  · by_cases heq : lookupRemote rs "upstream" = some url <;>
      simp [repo_remotes, hmem, heq, List.countP_cons, List.countP_nil,
        isCreateTag]
  · simp [repo_remotes, hmem, List.countP_cons, List.countP_nil, isCreateTag]

lemma countP_isCreateTag_sm (sms : List Submodule) :
    (update_submodulesActs sms).countP isCreateTag = 0 := by
  induction sms with
  | nil => rfl
  | cons sm t ih =>
    have hsplit : update_submodulesActs (sm :: t) =
        update_submodule sm ++ update_submodulesActs t := by
      simp [update_submodulesActs]
    rw [hsplit, List.countP_append, ih]
    by_cases hch : sm.changedFiles = [] <;>
      simp [update_submodule, hch, List.countP_cons, isCreateTag]

lemma countP_isCreateTag_stash (d u : List String) :
    ((stash_changes d u).1.countP isCreateTag) = 0 := by
  by_cases hd : d = [] <;>
    simp [stash_changes, get_status, hd, List.countP_cons, isCreateTag]

lemma countP_isCreateTag_syncUp (cb ub : String) :
    ((sync_upstreamActs cb ub).countP isCreateTag) = 0 := by
  by_cases hb : cb = ub <;>
    simp [sync_upstreamActs, hb, List.countP_cons, List.countP_append,
      isCreateTag]

lemma countP_isCreateTag_commit (env : Env) :
    ((commit_changesActs env).1.countP isCreateTag) = 1 := by
  rw [commit_changesActs_eq env]
  by_cases hb : env.currentBranch = env.upstreamBranch <;>
    simp [hb, List.countP_cons, List.countP_append, isCreateTag]

lemma countP_isCreateTag_pop (b : Bool) :
    ((stash_pop_changes b).countP isCreateTag) = 0 := by
  cases b <;> simp [stash_pop_changes, List.countP_cons, isCreateTag]

/-- C8: every run that reaches the commit+push cycle creates exactly one
tag, named by the current local timestamp formatted
`YYYY-MM-DD-HH-MM-SS` and carrying the fixed message template embedding
that same timestamp; the tag created is independent of the tags that
already exist — no uniqueness check is performed beyond the second-level
granularity of the timestamp itself. -/
theorem one_tag_per_cycle (env : Env)
    (hc : (check_upstream_changes env.fetchInfos).2 = some true)
    (hm : env.mergeConflict = false) :
    ((syncRepoRun env).1.countP isCreateTag) = 1 ∧
    GitAction.createTag (formatTimestamp env.now) (tagMessage env.now)
      ∈ (syncRepoRun env).1 ∧
    (∀ ts ts' : List String, taggingActs ts env.now = taggingActs ts' env.now)
    := by
  refine ⟨?_, ?_, fun ts ts' => rfl⟩
  · rw [syncRepoRun_change env hc]
    simp only [List.countP_append]
    rw [syncBody_trace env hm]
    by_cases hcf : (commit_changesActs env).2 = false <;>
      cases hst : (stash_changes env.diffFiles env.untrackedFiles).2 <;>
        simp [hcf, hst, List.countP_append, List.countP_cons,
          countP_isCreateTag_remotes, countP_isCreateTag_sm,
          countP_isCreateTag_stash, countP_isCreateTag_syncUp,
          countP_isCreateTag_commit, countP_isCreateTag_pop, isCreateTag]
  · rw [syncRepoRun_change env hc]
    simp only [List.mem_append]
    rw [syncBody_trace env hm, commit_changesActs_eq env]
    simp [List.mem_append]

/-- Witness for C8 at the concrete change-bearing environment. -/
theorem one_tag_per_cycle_witness :
    ((check_upstream_changes envChange.fetchInfos).2 = some true ∧
     envChange.mergeConflict = false) ∧
    (((syncRepoRun envChange).1.countP isCreateTag) = 1 ∧
     GitAction.createTag (formatTimestamp envChange.now)
       (tagMessage envChange.now) ∈ (syncRepoRun envChange).1 ∧
     (∀ ts ts' : List String,
        taggingActs ts envChange.now = taggingActs ts' envChange.now)) :=
  ⟨⟨by decide, by decide⟩, one_tag_per_cycle envChange (by decide) (by decide)⟩

/-- C10: in every change-bearing run that reaches the commit step, the push
of commits, the creation of the timestamped tag and the push of tags are all
performed unconditionally after the commit attempt: the commit outcome never
changes the commands issued, and in particular a tag is created even when
the commit attempt found nothing to commit. -/
theorem push_and_tag_unconditional (env : Env)
    (hc : (check_upstream_changes env.fetchInfos).2 = some true)
    (hm : env.mergeConflict = false) :
    (∀ c, commit_changesActs (setCommitOutcome env c) = commit_changesActs env)
    ∧
    (commit_changesActs env).1 =
      [GitAction.commit commitMessage, GitAction.push,
       GitAction.createTag (formatTimestamp env.now) (tagMessage env.now),
       GitAction.pushTags]
      ++ (if env.currentBranch ≠ env.upstreamBranch
          then [GitAction.checkout env.currentBranch,
                GitAction.rebase env.upstreamBranch]
          else []) ∧
    GitAction.push ∈ (syncRepoRun env).1 ∧
    GitAction.createTag (formatTimestamp env.now) (tagMessage env.now)
      ∈ (syncRepoRun env).1 ∧
    GitAction.pushTags ∈ (syncRepoRun env).1 := by
  refine ⟨fun c => commit_changesActs_setOutcome env c, ?_, ?_, ?_, ?_⟩
  · rw [commit_changesActs_eq env]
  all_goals
    rw [syncRepoRun_change env hc]
    simp only [List.mem_append]
    rw [syncBody_trace env hm, commit_changesActs_eq env]
    simp [List.mem_append]

/-- Witness for C10 at the concrete change-bearing environment, whose commit
attempt is then set to find nothing to commit. -/
theorem push_and_tag_unconditional_witness :
    ((check_upstream_changes
        (setCommitOutcome envChange CommitOutcome.nothingToCommit).fetchInfos).2
        = some true ∧
     (setCommitOutcome envChange CommitOutcome.nothingToCommit).mergeConflict
        = false) ∧
    ((∀ c, commit_changesActs
        (setCommitOutcome
          (setCommitOutcome envChange CommitOutcome.nothingToCommit) c) =
        commit_changesActs
          (setCommitOutcome envChange CommitOutcome.nothingToCommit)) ∧
     (commit_changesActs
        (setCommitOutcome envChange CommitOutcome.nothingToCommit)).1 =
      [GitAction.commit commitMessage, GitAction.push,
       GitAction.createTag
         (formatTimestamp
           (setCommitOutcome envChange CommitOutcome.nothingToCommit).now)
         (tagMessage
           (setCommitOutcome envChange CommitOutcome.nothingToCommit).now),
       GitAction.pushTags]
      ++ (if (setCommitOutcome envChange
              CommitOutcome.nothingToCommit).currentBranch ≠
            (setCommitOutcome envChange
              CommitOutcome.nothingToCommit).upstreamBranch
          then [GitAction.checkout
                  (setCommitOutcome envChange
                    CommitOutcome.nothingToCommit).currentBranch,
                GitAction.rebase
                  (setCommitOutcome envChange
                    CommitOutcome.nothingToCommit).upstreamBranch]
          else []) ∧
     GitAction.push ∈
       (syncRepoRun (setCommitOutcome envChange
          CommitOutcome.nothingToCommit)).1 ∧
     GitAction.createTag
       (formatTimestamp
         (setCommitOutcome envChange CommitOutcome.nothingToCommit).now)
       (tagMessage
         (setCommitOutcome envChange CommitOutcome.nothingToCommit).now) ∈
       (syncRepoRun (setCommitOutcome envChange
          CommitOutcome.nothingToCommit)).1 ∧
     GitAction.pushTags ∈
       (syncRepoRun (setCommitOutcome envChange
          CommitOutcome.nothingToCommit)).1) :=
  ⟨⟨by decide, by decide⟩,
   push_and_tag_unconditional
     (setCommitOutcome envChange CommitOutcome.nothingToCommit)
     (by decide) (by decide)⟩

end SyncRepo
